import Mathlib

/- Shallow embedding of the sealing/verification core of go-ethereum-aura:
the ethash remote-mining RPC API (package ethash, src/unnamed/part_000),
the validator-set multiplexer (src/consensus/validatorset/multi.go), and
the Pandora epoch/slot seal-verification model. -/

/-- Models `common.Hash` (a 32-byte value). Only decidable equality of hash
values is used by the embedded code, so hash values are modelled as natural
numbers. -/
abbrev Hash := Nat

/-- Models a Go byte slice. -/
abbrev Bytes := List Nat

namespace validatorset

/-- The `Multi` validator-set multiplexer of src/consensus/validatorset/multi.go.
The Go field `sets : map[int]ValidatorSet` maps an activation block height to a
validator-set implementation; it is modelled as an association list with
distinct keys, the interface values abstracted to a type `α` with a designated
zero value (`Inhabited.default`, standing for the Go interface zero value
`nil`). -/
structure Multi (α : Type) where
  sets : List (Int × α)

/-- A Go map read `sets[k]`: the stored value when the key is present, the
zero value of the value type when the key is absent. -/
def mapRead [Inhabited α] (sets : List (Int × α)) (k : Int) : α :=
  (sets.lookup k).getD default

/-- The comparator of `sort.Slice(setNumbers, func(i, j int) bool)` in
`correctSet`, which orders the activation heights descending
(`setNumbers[i] > setNumbers[j]`). -/
def descOrder (a b : Int) : Prop := b ≤ a

instance : DecidableRel descOrder := fun a b => Int.decLe b a

instance : IsTotal Int descOrder := ⟨fun a b => le_total b a⟩

instance : IsTrans Int descOrder := ⟨fun _ _ _ h1 h2 => le_trans h2 h1⟩

/-- `Multi.correctSet` (multi.go lines 25-48). When the map is empty it
panics (modelled as `none`). Otherwise it collects the registered activation
heights, sorts them in descending order, scans for the first height that is
at most `blockNumber` — leaving the scan variable at its initial value `0`
when no height qualifies — and returns the map entry stored under the found
height together with that height. -/
def Multi.correctSet [Inhabited α] (multi : Multi α) (blockNumber : Int) :
    Option (α × Int) :=
  if multi.sets.isEmpty then
    none
  else
    let setNumbers := (multi.sets.map Prod.fst).insertionSort descOrder
    let setNum :=
      (setNumbers.find? (fun setNumber => decide (setNumber ≤ blockNumber))).getD 0
    some (mapRead multi.sets setNum, setNum)

/-- `Multi.SignalToChange` (multi.go lines 50-56): resolves the validator set
for the header number via `correctSet`, recomputes the `first` flag as
"resolved activation height equals the header number" — discarding the
caller-supplied `first` — and forwards to the resolved implementation. The
forwarding is modelled by returning the resolved implementation together with
the recomputed flag that is passed to it; receipts, chain context and the
database handle are opaque pass-through arguments and are omitted. Returns
`none` when `correctSet` panics. -/
def Multi.SignalToChange [Inhabited α] (multi : Multi α) (first : Bool)
    (headerNumber : Int) : Option (α × Bool) :=
  match multi.correctSet headerNumber with
  | none => none
  | some (validator, setBlockNumber) =>
      some (validator, decide (setBlockNumber = headerNumber))

end validatorset

namespace ethash

/-- The block header fields of `types.Header` that the API functions read:
the declared parent hash and the block number (`Number.Uint64()`). -/
structure Header where
  parentHash : Hash
  number : Nat
deriving DecidableEq

/-- The 4-string work package `[4]string` returned by `GetWork` and
`GetShardingWork`: seal-hash, secondary hash, rlp-encoded header, and
hex-encoded block number. -/
structure WorkPackage where
  powHash : String
  secondaryHash : String
  rlpHeader : String
  blockNumber : String
deriving DecidableEq

/-- Errors the sealer loop can deliver on a per-request `errc` channel. The
loop itself is not under src/; the error kinds follow the spec: a submission
is rejected for stale work, unknown work, or an invalid seal, and the loop
can also report that no mining work is available on a fetch. -/
inductive SealerError
  | staleWork
  | unknownWork
  | invalidSeal
  | noMiningWork
deriving DecidableEq

/-- The errors observable from the API functions: `errors.New("not supported")`,
`errEthashStopped`, `errInvalidParentHash`, `errInvalidBlockNumber`, and an
error forwarded from the sealer loop on `errc`. -/
inductive ApiError
  | notSupported
  | ethashStopped
  | invalidParentHash
  | invalidBlockNumber
  | sealerFailure (e : SealerError)
deriving DecidableEq

/-- The outcome of the first `select` of each API call: either the request
message is accepted by the remote sealer loop (the channel send wins), or the
`exitCh` receive wins because the coordinator is shutting down. -/
inductive EnqueueOutcome
  | sent
  | exited
deriving DecidableEq

/-- What the sealer loop delivers for a fetch request: a work package on the
`res` channel, or an error on `errc`. -/
inductive SealerResponse
  | work (w : WorkPackage)
  | failure (e : SealerError)
deriving DecidableEq

/-- The observable interaction of one API call with the remote sealer loop:
which side wins the enqueue `select`, the reply the loop gives to a fetch
request, the error value (or nil) the loop sends on `errc` for a submit
request, and the current candidate block header
(`api.ethash.remote.currentBlock.Header()`, which may be nil). -/
structure RemoteEnv where
  enqueue : EnqueueOutcome
  response : SealerResponse
  submitOutcome : Option SealerError
  currentBlockHeader : Option Header
deriving DecidableEq

/-- The `Ethash` engine as seen by the API: only the `remote` field is read,
and remote mining is disabled exactly when it is nil. -/
structure Ethash where
  remote : Option RemoteEnv
deriving DecidableEq

/-- `API.GetWork` (part_000 lines 46-66): fails with "not supported" when
`remote` is nil; the enqueue select races the request send against `exitCh`
and fails with `errEthashStopped` when the exit wins; afterwards the call
returns the work package received on `workCh`, or the error received on
`errc`. -/
def API.GetWork (ethash : Ethash) : Except ApiError WorkPackage :=
  match ethash.remote with
  | none => .error .notSupported
  | some remote =>
    match remote.enqueue with
    | .exited => .error .ethashStopped
    | .sent =>
      match remote.response with
      | .work w => .ok w
      | .failure e => .error (.sealerFailure e)

/-- `API.GetShardingWork` (part_000 lines 69-111): as `GetWork`, but after a
work package arrives it inspects the current candidate block header (when one
exists): block number 1 skips all lineage checks; otherwise a parent-hash
mismatch fails with `errInvalidParentHash`, then a block-number mismatch
fails with `errInvalidBlockNumber`. -/
def API.GetShardingWork (ethash : Ethash) (parentHash : Hash)
    (blockNumber : Nat) : Except ApiError WorkPackage :=
  match ethash.remote with
  | none => .error .notSupported
  | some remote =>
    match remote.enqueue with
    | .exited => .error .ethashStopped
    | .sent =>
      match remote.response with
      | .failure e => .error (.sealerFailure e)
      | .work w =>
        match remote.currentBlockHeader with
        | none => .ok w
        | some curBlockHeader =>
          if blockNumber = 1 then .ok w
          else if curBlockHeader.parentHash ≠ parentHash then
            .error .invalidParentHash
          else if curBlockHeader.number ≠ blockNumber then
            .error .invalidBlockNumber
          else .ok w

/-- `API.SubmitWork` (part_000 lines 116-140): returns false when `remote` is
nil or when `exitCh` wins the enqueue select; otherwise it blocks on `errc`
and returns `err == nil`. The submitted nonce, hash and digest are forwarded
to the sealer loop inside the `mineResult` message and do not influence the
shape of the result, which is always a plain boolean. -/
def API.SubmitWork (ethash : Ethash) (nonce : Nat) (hash digest : Hash) : Bool :=
  match ethash.remote with
  | none => false
  | some remote =>
    match remote.enqueue with
    | .exited => false
    | .sent => remote.submitOutcome.isNone

/-- `API.SubmitWorkBLS` (part_000 lines 146-170): identical result logic to
`SubmitWork`; the hex signature string is decoded into signature bytes
(`hexutil.MustDecode`, modelled by taking the decoded bytes directly) and
forwarded inside the `mineResult` message. Returns `err == nil`. -/
def API.SubmitWorkBLS (ethash : Ethash) (nonce : Nat) (hash : Hash)
    (signatureBytes : Bytes) : Bool :=
  match ethash.remote with
  | none => false
  | some remote =>
    match remote.enqueue with
    | .exited => false
    | .sent => remote.submitOutcome.isNone

/-- `API.SubmitHashRate` (part_000 lines 178-193): returns false when
`remote` is nil or when `exitCh` wins the enqueue select; after a successful
enqueue it blocks on the bare receive from `done` and then returns true. -/
def API.SubmitHashRate (ethash : Ethash) (rate : Nat) (id : Hash) : Bool :=
  match ethash.remote with
  | none => false
  | some remote =>
    match remote.enqueue with
    | .exited => false
    | .sent => true

/-- The channels the API functions block on. -/
inductive Chan
  | submitRateCh
  | exitCh
  | doneCh
deriving DecidableEq

/-- The channel cases of the first blocking point of `API.SubmitHashRate`
(part_000 lines 184-188): a `select` racing the send on `submitRateCh`
against the receive from `exitCh`. -/
def submitHashRateEnqueueWait : List Chan :=
  [Chan.submitRateCh, Chan.exitCh]

/-- The channel cases of the second blocking point of `API.SubmitHashRate`
(part_000 line 191): the bare receive `<-done`, with no other case. -/
def submitHashRateAckWait : List Chan :=
  [Chan.doneCh]

/-- The two blocking points of `API.SubmitHashRate` in source order, each
given as the set of channel operations that can complete it. -/
def submitHashRateWaits : List (List Chan) :=
  [submitHashRateEnqueueWait, submitHashRateAckWait]

/-- A BLS public key of the opaque signature collaborator, modelled
symbolically. -/
abbrev PublicKey := Nat

/-- A BLS secret key of the opaque signature collaborator, modelled
symbolically. -/
abbrev SecretKey := Nat

/-- Modelled from the spec: key generation of the opaque BLS collaborator;
the public part of a secret key, an injective correspondence. -/
def pubKeyOf (sk : SecretKey) : PublicKey := sk

/-- The canonical pre-signature commitment `Ethash.SealHash(header)` — the
header with the signature-bearing fields blanked. The hashing body is not
under src/; modelled from the spec as an injective function of the remaining
header fields. -/
structure SealHash where
  number : Nat
  time : Nat
  slot : Nat
  epoch : Nat
  turn : Nat
deriving DecidableEq

/-- Modelled from the spec: a signature of the opaque BLS collaborator,
modelled symbolically as the public part of the signing key paired with the
signed message, so that verification succeeds exactly for the key and the
message that produced the signature. -/
structure BlsSignature where
  pub : PublicKey
  message : SealHash
deriving DecidableEq

/-- Modelled from the spec: signing by the opaque BLS collaborator. -/
def blsSign (sk : SecretKey) (msg : SealHash) : BlsSignature :=
  ⟨pubKeyOf sk, msg⟩

/-- Modelled from the spec: verification by the opaque BLS collaborator:
`signature.Verify(pubKey, msg)` holds exactly when the signature was
produced over `msg` by the secret key whose public part is `pubKey`. -/
def blsVerify (pk : PublicKey) (msg : SealHash) (sig : BlsSignature) : Bool :=
  sig.pub == pk && sig.message == msg

/-- The decoded sealed consensus metadata embedded in a Pandora header
(`PandoraExtraDataSealed`): slot, epoch and turn, plus the BLS seal
signature. The byte-level codec is abstracted: the verifier model receives
the decoded form. -/
structure PandoraExtraDataSealed where
  slot : Nat
  epoch : Nat
  turn : Nat
  blsSignature : BlsSignature
deriving DecidableEq

/-- The Pandora header fields entering seal verification: block number,
declared time, and the decoded sealed extra data. -/
structure PandoraHeader where
  number : Nat
  time : Nat
  extra : PandoraExtraDataSealed
deriving DecidableEq

/-- The seal-hash of a Pandora header commits to every modelled field except
the seal signature. -/
def computeSealHash (h : PandoraHeader) : SealHash :=
  ⟨h.number, h.time, h.extra.slot, h.extra.epoch, h.extra.turn⟩

/-- The full header hash `header.Hash()` commits additionally to the seal
signature. -/
structure HeaderHash where
  preSeal : SealHash
  sealSig : BlsSignature
deriving DecidableEq

/-- The full header hash of a Pandora header. -/
def computeHeaderHash (h : PandoraHeader) : HeaderHash :=
  ⟨computeSealHash h, h.extra.blsSignature⟩

/-- `MinimalEpochConsensusInfo`: the validator rotation data of one epoch —
epoch index, ordered validator public keys, and the epoch start time. -/
structure MinimalEpochConsensusInfo where
  epoch : Nat
  validatorsList : List PublicKey
  epochTimeStartUnix : Int
deriving DecidableEq

/-- Modelled from the spec: `MinimalEpochConsensusInfo.AssignEpochStartFromGenesis`,
whose body is not under src/ (only `TestMinimalEpochConsensusInfo_AssignEpochStartFromGenesis`
exercises it). Following the spec recurrence: epoch 0 starts at the genesis
time, and each subsequent epoch starts one epoch width — validator-set size
times slot duration, in seconds — after the previous one. -/
def assignEpochStartFromGenesis (slotTimeDuration validatorListLen : Nat)
    (genesisUnix : Int) : Nat → Int
  | 0 => genesisUnix
  | n + 1 =>
      assignEpochStartFromGenesis slotTimeDuration validatorListLen genesisUnix n
        + ((validatorListLen * slotTimeDuration : Nat) : Int)

/-- The failure modes of Pandora seal verification that the model covers.
The payload of `invalidSignature` follows the expected error constructed in
`TestVerifySeal` (part_000 lines 876-881): the embedded signature, the full
header hash, and the seal-hash, in the order of the format string
"invalid signature: %s in header hash: %s with sealHash: %s". -/
inductive SealVerifyError
  | turnOutOfRange
  | invalidSignature (sig : BlsSignature) (headerHash : HeaderHash)
      (sealHash : SealHash)
deriving DecidableEq

/-- Modelled from the spec: the Pandora branch of `Ethash.verifySeal`, whose
body is not under src/. Following spec steps 2 to 6: the turn must index
into the resolved epoch validator list, the expected signer is the validator
at that turn, the seal-hash is recomputed, and the embedded signature is
verified against the expected signer and the seal-hash; on failure the error
carries the payload pinned by `TestVerifySeal`. Epoch resolution (spec step
3) is abstracted by passing the resolved `MinimalEpochConsensusInfo`
directly; the slot timing policy (spec step 7) is independent of the
signature step and is not modelled. -/
def verifySeal (epochInfo : MinimalEpochConsensusInfo) (h : PandoraHeader) :
    Option SealVerifyError :=
  if h.extra.turn < epochInfo.validatorsList.length then
    let signer := epochInfo.validatorsList.getD h.extra.turn 0
    if blsVerify signer (computeSealHash h) h.extra.blsSignature then
      none
    else
      some (.invalidSignature h.extra.blsSignature (computeHeaderHash h)
        (computeSealHash h))
  else
    some .turnOutOfRange

end ethash

namespace validatorset

/-- On a descending-sorted list, `find?` with the predicate "at most n"
returns the greatest element that is at most n. -/
theorem find?_le_of_sorted_desc (n : Int) :
    ∀ (l : List Int), l.Sorted descOrder →
      ∀ x, l.find? (fun k => decide (k ≤ n)) = some x →
        x ∈ l ∧ x ≤ n ∧ ∀ k ∈ l, k ≤ n → k ≤ x := by
  intro l
  induction l with
  | nil => intro _ x hx; simp at hx
  | cons a t ih =>
    intro hs x hx
    by_cases ha : a ≤ n
    · rw [List.find?_cons_of_pos _ (by simpa using ha)] at hx
      injection hx with hx
      subst hx
      refine ⟨List.mem_cons_self a t, ha, ?_⟩
      intro k hk _
      rcases List.mem_cons.mp hk with hk | hk
      · exact hk.le
      · exact List.rel_of_sorted_cons hs k hk
    · rw [List.find?_cons_of_neg _ (by simpa using ha)] at hx
      obtain ⟨hmem, hle, hmax⟩ := ih hs.of_cons x hx
      refine ⟨List.mem_cons_of_mem a hmem, hle, ?_⟩
      intro k hk hkn
      rcases List.mem_cons.mp hk with hk | hk
      · exact absurd (hk ▸ hkn) ha
      · exact hmax k hk hkn

/-- A key occurring among the mapped first components of an association list
can be looked up, and the looked-up pair is a member of the list. -/
theorem lookup_mem {α : Type} :
    ∀ (l : List (Int × α)) (k : Int), k ∈ l.map Prod.fst →
      ∃ v, l.lookup k = some v ∧ (k, v) ∈ l := by
  intro l
  induction l with
  | nil => intro k hk; simp at hk
  | cons p t ih =>
    obtain ⟨k1, v1⟩ := p
    intro k hk
    by_cases hpk : k = k1
    · subst hpk
      exact ⟨v1, by simp [List.lookup], by simp⟩
    · have hk2 : k ∈ t.map Prod.fst := by
        rcases List.mem_cons.mp hk with h | h
        · exact absurd h hpk
        · exact h
      obtain ⟨v, hv, hmem⟩ := ih k hk2
      refine ⟨v, ?_, List.mem_cons_of_mem _ hmem⟩
      have hb : (k == k1) = false := beq_eq_false_iff_ne.mpr hpk
      simp only [List.lookup, hb]
      exact hv

/-- C2 fails as stated: with a single binding registered at height 5 and
queried block number 3, `correctSet` does not panic; it returns activation
height 0 paired with the map zero value, and this is not a registered
binding — no registered activation height is at most 3, and height 0 in
particular is not registered. -/
theorem correctSet_unregistered_fallback_cex :
    (Multi.mk [((5 : Int), (42 : Nat))]).correctSet 3 = some (0, 0) ∧
    ((0 : Int), (0 : Nat)) ∉ (Multi.mk [((5 : Int), (42 : Nat))]).sets ∧
    (0 : Int) ∉ (Multi.mk [((5 : Int), (42 : Nat))]).sets.map Prod.fst := by
  decide

/-- C2 (amended): `correctSet` panics exactly when the binding map is empty,
and whenever some registered binding has activation height at most the
queried block number it returns the registered binding with the greatest
such activation height. -/
theorem correctSet_greatest_le {α : Type} [Inhabited α]
    (multi : Multi α) (blockNumber : Int)
    (p₀ : Int × α) (hp₀ : p₀ ∈ multi.sets) (hle : p₀.1 ≤ blockNumber) :
    (∀ m2 : Multi α, m2.correctSet blockNumber = none ↔ m2.sets = []) ∧
    ∃ v h, multi.correctSet blockNumber = some (v, h) ∧
      (h, v) ∈ multi.sets ∧ h ≤ blockNumber ∧
      ∀ p ∈ multi.sets, p.1 ≤ blockNumber → p.1 ≤ h := by
  constructor
  · intro m2
    constructor
    · intro hnone
      cases hsets : m2.sets with
      | nil => rfl
      | cons a t =>
        have hempty : m2.sets.isEmpty = false := by simp [hsets]
        simp [Multi.correctSet, hempty] at hnone
    · intro hemp
      simp [Multi.correctSet, hemp]
  · have hempty : multi.sets.isEmpty = false := by
      cases hsets : multi.sets with
      | nil => rw [hsets] at hp₀; exact absurd hp₀ (List.not_mem_nil p₀)
      | cons a t => simp [hsets]
    have hperm :=
      List.perm_insertionSort descOrder (multi.sets.map Prod.fst)
    have hsortedS :
        ((multi.sets.map Prod.fst).insertionSort descOrder).Sorted descOrder :=
      List.sorted_insertionSort descOrder (multi.sets.map Prod.fst)
    have hmems :
        p₀.1 ∈ (multi.sets.map Prod.fst).insertionSort descOrder :=
      hperm.mem_iff.mpr (List.mem_map_of_mem Prod.fst hp₀)
    have hsome :
        (((multi.sets.map Prod.fst).insertionSort descOrder).find?
          (fun setNumber => decide (setNumber ≤ blockNumber))).isSome := by
      rw [List.find?_isSome]
      exact ⟨p₀.1, hmems, by simpa using hle⟩
    obtain ⟨x, hfind⟩ := Option.isSome_iff_exists.mp hsome
    obtain ⟨hxmem, hxle, hxmax⟩ :=
      find?_le_of_sorted_desc blockNumber _ hsortedS x hfind
    have hxkeys : x ∈ multi.sets.map Prod.fst := hperm.mem_iff.mp hxmem
    obtain ⟨v, hv, hpv⟩ := lookup_mem multi.sets x hxkeys
    refine ⟨v, x, ?_, hpv, hxle, ?_⟩
    · simp only [Multi.correctSet, hempty, Bool.false_eq_true, if_false]
      rw [hfind]
      simp [mapRead, hv]
    · intro p hp hple
      have hmem2 : p.1 ∈ (multi.sets.map Prod.fst).insertionSort descOrder :=
        hperm.mem_iff.mpr (List.mem_map_of_mem Prod.fst hp)
      exact hxmax p.1 hmem2 hple

/-- Witness for the amended C2 at a concrete binding map: activation heights
0, 5 and 3; at queried block number 4 the resolution is the binding at
height 3, the greatest registered height at most 4. -/
theorem correctSet_greatest_le_witness :
    (∀ m2 : Multi Nat, m2.correctSet 4 = none ↔ m2.sets = []) ∧
    ∃ v h,
      (Multi.mk [((0 : Int), (10 : Nat)), (5, 42), (3, 7)]).correctSet 4 =
        some (v, h) ∧
      (h, v) ∈ (Multi.mk [((0 : Int), (10 : Nat)), (5, 42), (3, 7)]).sets ∧
      h ≤ 4 ∧
      ∀ p ∈ (Multi.mk [((0 : Int), (10 : Nat)), (5, 42), (3, 7)]).sets,
        p.1 ≤ 4 → p.1 ≤ h :=
  correctSet_greatest_le (Multi.mk [((0 : Int), (10 : Nat)), (5, 42), (3, 7)])
    4 (0, 10) (by decide) (by decide)

/-- C4: `SignalToChange` recomputes the first-block-of-set flag, ignoring
the caller hint: for every nonempty binding map and every header number, the
flag forwarded to the resolved implementation equals
`decide (resolved activation height = header number)` — true exactly when
the header number equals the resolved activation height — identically for
every caller-supplied hint. -/
theorem signalToChange_recomputes_first {α : Type} [Inhabited α]
    (multi : Multi α) (headerNumber : Int) (hne : multi.sets ≠ []) :
    ∃ v h, multi.correctSet headerNumber = some (v, h) ∧
      ∀ hint : Bool, multi.SignalToChange hint headerNumber =
        some (v, decide (h = headerNumber)) := by
  have hempty : multi.sets.isEmpty = false := by
    cases hsets : multi.sets with
    | nil => exact absurd hsets hne
    | cons a t => simp [hsets]
  cases hres : multi.correctSet headerNumber with
  | none => simp [Multi.correctSet, hempty] at hres
  | some pair =>
    obtain ⟨v, h⟩ := pair
    exact ⟨v, h, rfl, fun hint => by simp [Multi.SignalToChange, hres]⟩

/-- Witness for C4 at a concrete binding map with activation heights 0, 5
and 3, queried at header number 5: the resolved height is 5, so the
forwarded flag is true regardless of the hint. -/
theorem signalToChange_recomputes_first_witness :
    ∃ v h,
      (Multi.mk [((0 : Int), (10 : Nat)), (5, 42), (3, 7)]).correctSet 5 =
        some (v, h) ∧
      ∀ hint : Bool,
        (Multi.mk [((0 : Int), (10 : Nat)), (5, 42), (3, 7)]).SignalToChange
          hint 5 = some (v, decide (h = 5)) :=
  signalToChange_recomputes_first
    (Multi.mk [((0 : Int), (10 : Nat)), (5, 42), (3, 7)]) 5 (by decide)

/-- C10: when the binding map is nonempty but no registered activation
height is at most the queried block number, `correctSet` does not panic: it
returns activation height 0 together with whatever the map stores under key
0 — the zero value of the implementation type when no height-0 binding is
registered — while the panic branch is taken on the empty map. -/
theorem correctSet_fallback_zero {α : Type} [Inhabited α]
    (multi : Multi α) (blockNumber : Int) (hne : multi.sets ≠ [])
    (hgt : ∀ p ∈ multi.sets, ¬ p.1 ≤ blockNumber) :
    multi.correctSet blockNumber = some (mapRead multi.sets 0, 0) ∧
    (Multi.mk ([] : List (Int × α))).correctSet blockNumber = none := by
  constructor
  · have hempty : multi.sets.isEmpty = false := by
      cases hsets : multi.sets with
      | nil => exact absurd hsets hne
      | cons a t => simp [hsets]
    have hnone :
        ((multi.sets.map Prod.fst).insertionSort descOrder).find?
          (fun setNumber => decide (setNumber ≤ blockNumber)) = none := by
      rw [List.find?_eq_none]
      intro x hx
      have hxkeys : x ∈ multi.sets.map Prod.fst :=
        (List.perm_insertionSort descOrder (multi.sets.map Prod.fst)).mem_iff.mp hx
      obtain ⟨p, hp, hpx⟩ := List.mem_map.mp hxkeys
      simpa [← hpx] using not_le.mp (hgt p hp)
    simp only [Multi.correctSet, hempty, Bool.false_eq_true, if_false]
    rw [hnone]
    rfl
  · simp [Multi.correctSet]

/-- Witness for C10: a single binding at height 5 queried at block number 3
(no registered height is at most 3) resolves to height 0 with the zero
value, without panicking. -/
theorem correctSet_fallback_zero_witness :
    (Multi.mk [((5 : Int), (42 : Nat))]).correctSet 3 =
      some (mapRead (Multi.mk [((5 : Int), (42 : Nat))]).sets 0, 0) ∧
    (Multi.mk ([] : List (Int × Nat))).correctSet 3 = none :=
  correctSet_fallback_zero (Multi.mk [((5 : Int), (42 : Nat))]) 3
    (by decide) (by decide)

end validatorset

namespace ethash

/-- C1: for every seal submission via `SubmitWork` and `SubmitWorkBLS` the
externally observable result is a plain boolean, true exactly when the
submission reached the sealer loop and the loop reported no error on `errc`.
Every failure — a nil remote, a shutdown winning the enqueue select, or any
sealer error such as stale work, unknown work or an invalid seal — collapses
to the same bare `false`, exposing no verification detail. -/
theorem submit_boolean_collapse (e : Ethash) (nonce : Nat) (hash digest : Hash)
    (signatureBytes : Bytes) :
    (API.SubmitWork e nonce hash digest = true ↔
      ∃ r, e.remote = some r ∧ r.enqueue = EnqueueOutcome.sent ∧
        r.submitOutcome = none) ∧
    (API.SubmitWorkBLS e nonce hash signatureBytes = true ↔
      ∃ r, e.remote = some r ∧ r.enqueue = EnqueueOutcome.sent ∧
        r.submitOutcome = none) := by
  obtain ⟨remote⟩ := e
  constructor <;>
  · cases remote with
    | none => simp [API.SubmitWork, API.SubmitWorkBLS]
    | some r =>
      cases hq : r.enqueue <;>
        simp [API.SubmitWork, API.SubmitWorkBLS, hq,
          Option.isNone_iff_eq_none]

/-- C3: lineage validation of `GetShardingWork`, on the path where the
sealer loop delivers a work package and a current candidate header exists:
block number 1 succeeds regardless of any parent-hash mismatch; a block
number greater than 1 with a mismatched parent hash fails with
`errInvalidParentHash`; a block number greater than 1 with a matching parent
hash but a candidate block number different from the requested one fails
with `errInvalidBlockNumber`. -/
theorem getShardingWork_lineage (r : RemoteEnv) (w : WorkPackage)
    (cur : Header) (parentHash : Hash) (blockNumber : Nat)
    (hsent : r.enqueue = EnqueueOutcome.sent)
    (hwork : r.response = SealerResponse.work w)
    (hcur : r.currentBlockHeader = some cur) :
    (blockNumber = 1 →
      API.GetShardingWork ⟨some r⟩ parentHash blockNumber = .ok w) ∧
    (1 < blockNumber → cur.parentHash ≠ parentHash →
      API.GetShardingWork ⟨some r⟩ parentHash blockNumber =
        .error ApiError.invalidParentHash) ∧
    (1 < blockNumber → cur.parentHash = parentHash →
      cur.number ≠ blockNumber →
      API.GetShardingWork ⟨some r⟩ parentHash blockNumber =
        .error ApiError.invalidBlockNumber) := by
  refine ⟨?_, ?_, ?_⟩
  · intro h1
    simp [API.GetShardingWork, hsent, hwork, hcur, h1]
  · intro hgt hne
    have h1 : ¬ blockNumber = 1 := by omega
    simp [API.GetShardingWork, hsent, hwork, hcur, h1, hne]
  · intro hgt hpe hnum
    have h1 : ¬ blockNumber = 1 := by omega
    simp [API.GetShardingWork, hsent, hwork, hcur, h1, hpe, hnum]

/-- Witness for C3: a candidate header with parent hash 7 and number 9, a
request for block number 2 with supplied parent hash 8: the call fails with
`errInvalidParentHash`. -/
theorem getShardingWork_lineage_witness :
    API.GetShardingWork
      ⟨some ⟨EnqueueOutcome.sent, SealerResponse.work ⟨"", "", "", ""⟩, none,
        some ⟨7, 9⟩⟩⟩ 8 2 = .error ApiError.invalidParentHash :=
  (getShardingWork_lineage
      ⟨EnqueueOutcome.sent, SealerResponse.work ⟨"", "", "", ""⟩, none,
        some ⟨7, 9⟩⟩
      ⟨"", "", "", ""⟩ ⟨7, 9⟩ 8 2 rfl rfl rfl).2.1 (by decide) (by decide)

/-- C9: `GetShardingWork` with block number 1 performs no lineage validation
at all: whenever the sealer loop delivers a work package the call succeeds,
for every supplied parent hash and every current candidate header — in
particular even when the candidate block number differs from 1 and the
candidate parent hash differs from the supplied one. -/
theorem getShardingWork_blockOne_skips_checks (r : RemoteEnv)
    (w : WorkPackage) (parentHash : Hash)
    (hsent : r.enqueue = EnqueueOutcome.sent)
    (hwork : r.response = SealerResponse.work w) :
    API.GetShardingWork ⟨some r⟩ parentHash 1 = .ok w := by
  cases hcur : r.currentBlockHeader with
  | none => simp [API.GetShardingWork, hsent, hwork, hcur]
  | some cur => simp [API.GetShardingWork, hsent, hwork, hcur]

/-- Witness for C9: the candidate header has parent hash 99 and block number
5, the supplied parent hash 1 does not match, yet the request for block
number 1 succeeds with the delivered work package. -/
theorem getShardingWork_blockOne_skips_checks_witness :
    API.GetShardingWork
      ⟨some ⟨EnqueueOutcome.sent, SealerResponse.work ⟨"", "", "", ""⟩, none,
        some ⟨99, 5⟩⟩⟩ 1 1 = .ok ⟨"", "", "", ""⟩ :=
  getShardingWork_blockOne_skips_checks
    ⟨EnqueueOutcome.sent, SealerResponse.work ⟨"", "", "", ""⟩, none,
      some ⟨99, 5⟩⟩ ⟨"", "", "", ""⟩ 1 rfl rfl

/-- C6 fails as stated on the sealer-error path: with remote mining enabled
and no shutdown, when the sealer loop answers the enqueued request with an
error on `errc` — here: no mining work available — `GetWork` returns that
error rather than a work package (and neither `notSupported` nor
`ethashStopped`). -/
theorem getWork_sealer_error_cex :
    API.GetWork
      ⟨some ⟨EnqueueOutcome.sent,
        SealerResponse.failure SealerError.noMiningWork, none, none⟩⟩ =
      .error (ApiError.sealerFailure SealerError.noMiningWork) := rfl

/-- C6 (amended): `GetWork` fails with `notSupported` when the remote sealer
is nil; fails with `ethashStopped` when the shutdown signal wins the enqueue
select; and after a successful enqueue it returns the work package the
sealer loop delivers, or propagates the error the loop reports instead. -/
theorem getWork_cases (e : Ethash) :
    (e.remote = none → API.GetWork e = .error ApiError.notSupported) ∧
    (∀ r, e.remote = some r → r.enqueue = EnqueueOutcome.exited →
      API.GetWork e = .error ApiError.ethashStopped) ∧
    (∀ r w, e.remote = some r → r.enqueue = EnqueueOutcome.sent →
      r.response = SealerResponse.work w → API.GetWork e = .ok w) ∧
    (∀ r err, e.remote = some r → r.enqueue = EnqueueOutcome.sent →
      r.response = SealerResponse.failure err →
      API.GetWork e = .error (ApiError.sealerFailure err)) := by
  refine ⟨fun hnone => by simp [API.GetWork, hnone],
    fun r hr he => ?_, fun r w hr hs hw => ?_, fun r err hr hs hf => ?_⟩
  · simp [API.GetWork, hr, he]
  · simp [API.GetWork, hr, hs, hw]
  · simp [API.GetWork, hr, hs, hf]

/-- Witness for the amended C6: with the remote sealer present, the enqueue
accepted, and the loop delivering a work package, `GetWork` returns that
package. -/
theorem getWork_cases_witness :
    API.GetWork
      ⟨some ⟨EnqueueOutcome.sent, SealerResponse.work ⟨"", "", "", ""⟩,
        none, none⟩⟩ = .ok ⟨"", "", "", ""⟩ :=
  (getWork_cases
      ⟨some ⟨EnqueueOutcome.sent, SealerResponse.work ⟨"", "", "", ""⟩,
        none, none⟩⟩).2.2.1 _ ⟨"", "", "", ""⟩ rfl rfl rfl

/-- C5 fails as stated: it is not the case that every blocking wait of
`SubmitHashRate` races against the shutdown signal — the acknowledgement
wait, the bare receive from the `done` channel, has no `exitCh`
alternative. -/
theorem submitHashRate_waits_cex :
    ¬ ∀ w ∈ submitHashRateWaits, Chan.exitCh ∈ w := by decide

/-- C5 (amended): the enqueue wait of `SubmitHashRate` races against the
shutdown signal, and the call returns false when the shutdown wins; the
acknowledgement is synchronous but its wait does not race against shutdown —
it can complete only on the `done` channel — and after a successful enqueue
the call returns true once the acknowledgement arrives. -/
theorem submitHashRate_shutdown_race (e : Ethash) (rate : Nat) (id : Hash) :
    Chan.exitCh ∈ submitHashRateEnqueueWait ∧
    Chan.exitCh ∉ submitHashRateAckWait ∧
    (∀ r, e.remote = some r → r.enqueue = EnqueueOutcome.exited →
      API.SubmitHashRate e rate id = false) ∧
    (∀ r, e.remote = some r → r.enqueue = EnqueueOutcome.sent →
      API.SubmitHashRate e rate id = true) := by
  refine ⟨by decide, by decide, fun r hr he => ?_, fun r hr hs => ?_⟩
  · simp [API.SubmitHashRate, hr, he]
  · simp [API.SubmitHashRate, hr, hs]

/-- Witness for the amended C5: with the shutdown signal winning the enqueue
select, `SubmitHashRate` returns false. -/
theorem submitHashRate_shutdown_race_witness :
    API.SubmitHashRate
      ⟨some ⟨EnqueueOutcome.exited, SealerResponse.work ⟨"", "", "", ""⟩,
        none, none⟩⟩ 5 9 = false :=
  (submitHashRate_shutdown_race
      ⟨some ⟨EnqueueOutcome.exited, SealerResponse.work ⟨"", "", "", ""⟩,
        none, none⟩⟩ 5 9).2.2.1 _ rfl rfl

/-- Closed form of the epoch start recurrence. -/
theorem assignEpochStart_eq (slotTimeDuration validatorListLen : Nat)
    (genesisUnix : Int) :
    ∀ i : Nat,
      assignEpochStartFromGenesis slotTimeDuration validatorListLen
        genesisUnix i =
      genesisUnix + ((i * (validatorListLen * slotTimeDuration) : Nat) : Int) := by
  intro i
  induction i with
  | zero => simp [assignEpochStartFromGenesis]
  | succ n ih =>
    rw [assignEpochStartFromGenesis, ih]
    push_cast
    ring

/-- C7: the epoch start assigned from genesis equals the genesis time plus
the epoch index times the epoch width (validator-set size times slot
duration, in seconds); in particular epoch 0 starts exactly at the genesis
time, and — the width being positive — epoch starts are strictly increasing
in the epoch index. -/
theorem assignEpochStart_closed_form (slotTimeDuration validatorListLen : Nat)
    (genesisUnix : Int) (i j : Nat)
    (hslot : 0 < slotTimeDuration) (hlen : 0 < validatorListLen)
    (hij : i < j) :
    assignEpochStartFromGenesis slotTimeDuration validatorListLen
        genesisUnix i =
      genesisUnix + ((i * (validatorListLen * slotTimeDuration) : Nat) : Int) ∧
    assignEpochStartFromGenesis slotTimeDuration validatorListLen
        genesisUnix 0 = genesisUnix ∧
    assignEpochStartFromGenesis slotTimeDuration validatorListLen
        genesisUnix i <
      assignEpochStartFromGenesis slotTimeDuration validatorListLen
        genesisUnix j := by
  refine ⟨assignEpochStart_eq _ _ _ i, by simp [assignEpochStartFromGenesis], ?_⟩
  rw [assignEpochStart_eq, assignEpochStart_eq]
  have hw : (0 : Int) < (validatorListLen : Int) * (slotTimeDuration : Int) := by
    have h1 : (0 : Int) < (validatorListLen : Int) := by exact_mod_cast hlen
    have h2 : (0 : Int) < (slotTimeDuration : Int) := by exact_mod_cast hslot
    exact mul_pos h1 h2
  have hij2 : (i : Int) < (j : Int) := by exact_mod_cast hij
  have hmul := mul_lt_mul_of_pos_right hij2 hw
  push_cast
  linarith [hmul]

/-- Witness for C7 with the mainnet-beacon-style constants: slot duration 6
seconds and 32 validators per epoch, genesis at unix time 1606824023. -/
theorem assignEpochStart_closed_form_witness :
    assignEpochStartFromGenesis 6 32 1606824023 2 =
      1606824023 + ((2 * (32 * 6) : Nat) : Int) ∧
    assignEpochStartFromGenesis 6 32 1606824023 0 = 1606824023 ∧
    assignEpochStartFromGenesis 6 32 1606824023 2 <
      assignEpochStartFromGenesis 6 32 1606824023 5 :=
  assignEpochStart_closed_form 6 32 1606824023 2 5 (by decide) (by decide)
    (by decide)

/-- C8 fails as stated: the invalid-signature error does not carry the
expected signer identity. Two epoch stores that designate different expected
signers — public keys 3 and 4 — for the same turn produce the same error
value for the same wrongly sealed header, so the expected signer cannot be
recovered from the error; as pinned by `TestVerifySeal`, the error carries
the embedded signature, the header hash and the seal-hash instead. -/
theorem verifySeal_error_no_signer_cex :
    verifySeal ⟨0, [3], 0⟩ ⟨1, 100, ⟨0, 0, 0, blsSign 7 ⟨1, 100, 0, 0, 0⟩⟩⟩ =
      verifySeal ⟨0, [4], 0⟩
        ⟨1, 100, ⟨0, 0, 0, blsSign 7 ⟨1, 100, 0, 0, 0⟩⟩⟩ ∧
    verifySeal ⟨0, [3], 0⟩ ⟨1, 100, ⟨0, 0, 0, blsSign 7 ⟨1, 100, 0, 0, 0⟩⟩⟩ =
      some (SealVerifyError.invalidSignature (blsSign 7 ⟨1, 100, 0, 0, 0⟩)
        ⟨⟨1, 100, 0, 0, 0⟩, blsSign 7 ⟨1, 100, 0, 0, 0⟩⟩
        ⟨1, 100, 0, 0, 0⟩) := by
  decide

/-- C8 (amended): when a header is sealed over its seal-hash by any key
whose public part differs from the expected validator for the turn, seal
verification fails with the invalid-signature error whose payload is the
embedded signature, the full header hash and the seal-hash. -/
theorem verifySeal_wrong_key (epochInfo : MinimalEpochConsensusInfo)
    (h : PandoraHeader) (sk : SecretKey)
    (hturn : h.extra.turn < epochInfo.validatorsList.length)
    (hseal : h.extra.blsSignature = blsSign sk (computeSealHash h))
    (hwrong : pubKeyOf sk ≠ epochInfo.validatorsList.getD h.extra.turn 0) :
    verifySeal epochInfo h =
      some (SealVerifyError.invalidSignature h.extra.blsSignature
        (computeHeaderHash h) (computeSealHash h)) := by
  have hv : blsVerify (epochInfo.validatorsList.getD h.extra.turn 0)
      (computeSealHash h) h.extra.blsSignature = false := by
    rw [hseal]
    have h1 : (pubKeyOf sk == epochInfo.validatorsList.getD h.extra.turn 0) =
        false := beq_eq_false_iff_ne.mpr hwrong
    show (pubKeyOf sk == epochInfo.validatorsList.getD h.extra.turn 0 &&
        (computeSealHash h == computeSealHash h)) = false
    rw [h1, Bool.false_and]
  simp only [verifySeal]
  rw [if_pos hturn, hv]
  simp

/-- Witness for the amended C8: the expected validators for the epoch are
the public keys 5 and 11, the header declares turn 1, and it is sealed by
the key 7; verification fails with the pinned invalid-signature payload. -/
theorem verifySeal_wrong_key_witness :
    verifySeal ⟨2, [5, 11], 0⟩ ⟨9, 50, ⟨1, 2, 1, blsSign 7 ⟨9, 50, 1, 2, 1⟩⟩⟩ =
      some (SealVerifyError.invalidSignature (blsSign 7 ⟨9, 50, 1, 2, 1⟩)
        (computeHeaderHash ⟨9, 50, ⟨1, 2, 1, blsSign 7 ⟨9, 50, 1, 2, 1⟩⟩⟩)
        (computeSealHash ⟨9, 50, ⟨1, 2, 1, blsSign 7 ⟨9, 50, 1, 2, 1⟩⟩⟩)) :=
  verifySeal_wrong_key ⟨2, [5, 11], 0⟩
    ⟨9, 50, ⟨1, 2, 1, blsSign 7 ⟨9, 50, 1, 2, 1⟩⟩⟩ 7 (by decide) rfl
    (by decide)

end ethash
